import Mathlib

/-!
Verification of the connection-reuse and authentication-resolution subsystem
of the `mc` administration tool (files `cmd/subnet-utils.go` and the cached
admin-client factory).  Go code is shallowly embedded: Go strings are byte
lists (`ByteStr`), machine integers are `Nat`/`Int` with explicit `% 2^w`
where overflow matters, nil-able Go errors are `Option`/`Except`, and a Go
runtime panic is the explicit result `GoResult.crash`.
-/

/-- Go strings are byte sequences; we model them as lists of naturals
(each byte `< 256` in well-formed inputs). -/
abbrev ByteStr := List Nat

/-- FNV-1a 32-bit hash, as computed by `hash/fnv`'s `New32a`:
`h := 2166136261`, then for each byte `h := (h XOR b) * 16777619 mod 2^32`. -/
def fnv32a (bs : ByteStr) : Nat :=
  bs.foldl (fun h b => ((h ^^^ (b % 256)) * 16777619) % 4294967296) 2166136261

/-- The parts of the factory's `Config` that feed the cache fingerprint:
`host` stands for `url.Parse(config.HostURL).Host`, plus the two keys.
(The TLS/debug fields only affect transport construction, not identity.) -/
structure AdminConfig where
  host : ByteStr
  accessKey : ByteStr
  secretKey : ByteStr
deriving DecidableEq

/-- State closed over by `newAdminFactory`: the client cache
(`map[uint32]*madmin.AdminClient`, keyed by the config hash) plus an
allocator that gives each newly constructed client a fresh identity.
Client identities are `Nat`s: equal numbers model pointer-equal
`*madmin.AdminClient` instances. -/
structure AdminFactoryState where
  clientCache : List (Nat × Nat)
  nextClient : Nat
deriving DecidableEq

/-- The factory's initial state: an empty cache. -/
def initAdminFactoryState : AdminFactoryState := ⟨[], 0⟩

/-- Go map lookup over the association-list model of `clientCache`. -/
def cacheLookup : List (Nat × Nat) → Nat → Option Nat
  | [], _ => none
  | (h, c) :: rest, k => if h = k then some c else cacheLookup rest k

/-- `confSum` of `newAdminFactory`: FNV-1a-32 of the separator-free
concatenation `hostName + config.AccessKey + config.SecretKey`. -/
def confFingerprint (cfg : AdminConfig) : Nat :=
  fnv32a (cfg.host ++ cfg.accessKey ++ cfg.secretKey)

/-- One call of the function returned by `newAdminFactory` (bound to
`s3AdminNew` in the source).  Under the mutex it looks the fingerprint up in
the cache and returns the cached client, else it constructs a new client
(`madmin.New` may fail, modelled by the `newFails` oracle; on failure
nothing is cached), stores it under the fingerprint and returns it. -/
def s3AdminNew (newFails : Bool) (st : AdminFactoryState) (cfg : AdminConfig) :
    Option Nat × AdminFactoryState :=
  let confSum := confFingerprint cfg
  match cacheLookup st.clientCache confSum with
  | some api => (some api, st)
  | none =>
    if newFails then (none, st)
    else (some st.nextClient,
      ⟨(confSum, st.nextClient) :: st.clientCache, st.nextClient + 1⟩)

/-- A process run: the factory state reached after a sequence of calls
(each call records whether its `madmin.New` would fail). -/
def runAdminCalls (calls : List (Bool × AdminConfig)) : AdminFactoryState :=
  calls.foldl (fun st c => (s3AdminNew c.1 st c.2).2) initAdminFactoryState

/-- Invariant of the factory state: every cached client identity is below
the allocator, and distinct fingerprints are cached with distinct clients. -/
def AdminCacheInv (st : AdminFactoryState) : Prop :=
  (∀ p ∈ st.clientCache, p.2 < st.nextClient) ∧
  (∀ p ∈ st.clientCache, ∀ q ∈ st.clientCache, p.1 ≠ q.1 → p.2 ≠ q.2)

/-! Credential resolution (`getSubnetKeyFromMinIOConfig` and friends). -/

/-- One `madmin.KVS` entry of the server's `subnet` config subsystem. -/
structure ConfigKV where
  key : String
  value : String
deriving DecidableEq

/-- The administered cluster's configuration, as observed through the admin
client: the top-level keys of `HelpConfigKV(ctx, "", "", false).KeysHelp`,
and the parsed `subnet` sub-system target's `KVS` list.  All admin calls in
the modelled functions are wrapped in `fatalIf`, so only the successful
responses flow onward; the error paths abort the process. -/
structure MinIOConfig where
  helpKeys : List String
  subnetKVS : List ConfigKV
deriving DecidableEq

/-- The local `mc` configuration record for one alias:
`{APIKey, License}`. -/
structure AliasConfig where
  apiKey : String
  license : String
deriving DecidableEq

/-- `minioConfigSupportsSubnet`: scans the config help keys for `subnet`. -/
def minioConfigSupportsSubnet (c : MinIOConfig) : Bool :=
  c.helpKeys.any (fun h => h = "subnet")

/-- The `for _, kv := range tgt.KVS` loop of `getSubnetKeyFromMinIOConfig`:
returns `(true, kv.Value)` at the first matching key, `(false, "")` after
the loop. -/
def kvsLookup : List ConfigKV → String → Bool × String
  | [], _ => (false, "")
  | kv :: rest, k => if kv.key = k then (true, kv.value) else kvsLookup rest k

/-- `getSubnetKeyFromMinIOConfig`: if the cluster's config schema carries a
`subnet` subsystem, scan its key-value pairs for `key`; otherwise (or when
the key is absent) report `(false, "")`. -/
def getSubnetKeyFromMinIOConfig (c : MinIOConfig) (key : String) : Bool × String :=
  if minioConfigSupportsSubnet c then kvsLookup c.subnetKVS key
  else (false, "")

/-- `getSubnetAPIKeyFromConfig`: the server-held `api_key` when the
administered cluster holds it, else the local alias config's `APIKey`. -/
def getSubnetAPIKeyFromConfig (c : MinIOConfig) (aliasCfg : AliasConfig) : String :=
  let r := getSubnetKeyFromMinIOConfig c "api_key"
  if r.1 then r.2 else aliasCfg.apiKey

/-- `getSubnetLicenseFromConfig`: the server-held `license` when the
administered cluster holds it, else the local alias config's `License`. -/
def getSubnetLicenseFromConfig (c : MinIOConfig) (aliasCfg : AliasConfig) : String :=
  let r := getSubnetKeyFromMinIOConfig c "license"
  if r.1 then r.2 else aliasCfg.license

/-- Specification-side view: the cluster holds `key` when its config schema
has the `subnet` subsystem and that subsystem's KVS has an entry for `key`;
the held value is the first such entry. -/
def serverHeldKey (c : MinIOConfig) (key : String) : Option ConfigKV :=
  if minioConfigSupportsSubnet c then
    c.subnetKVS.find? (fun kv => kv.key = key)
  else none

/-! Authorization-URL construction (`subnetURLWithAuth`). -/

/-- A Go `map[string]string` of request headers. -/
abbrev Headers := List (String × String)

/-- `subnetAuthHeaders`: a bearer-token `Authorization` header. -/
def subnetAuthHeaders (authToken : String) : Headers :=
  [("Authorization", "Bearer " ++ authToken)]

/-- `subnetURLWithAuth`.  The two network-interacting callees are passed as
oracles: `loginRes` is the outcome of `subnetLogin()` and `accRes` the
outcome of `getSubnetAccID(headers)`.  The triple mirrors the Go returns
`(string, map[string]string, error)` with `none` for a nil map / nil error.
The `accRes` error branch reproduces the source verbatim: it returns `e`
(the `subnetLogin` error, necessarily nil at that point), not `err`. -/
def subnetURLWithAuth (reqURL apiKey license : String)
    (loginRes : Except String String) (accRes : Except String String) :
    String × Option Headers × Option String :=
  let headers : Headers := []
  if apiKey.length > 0 then
    (reqURL ++ "?api_key=" ++ apiKey, some headers, none)
  else if license.length > 0 then
    (reqURL ++ "?license=" ++ license, some headers, none)
  else
    match loginRes with
    | .error e => ("", none, some e)
    | .ok token =>
      let headers := subnetAuthHeaders token
      match accRes with
      | .error _ => ("", some headers, none)
      | .ok accID => (reqURL ++ "?aid=" ++ accID, some headers, none)

/-! Interactive login (`subnetLogin`). -/

/-- The fields the login flow reads (via `gjson`) from a login / MFA-login
response body: `mfa_required`, `mfa_token`, and `token_info.access_token`
(`none` when the path does not exist in the JSON). -/
structure SubnetLoginResp where
  mfaRequired : Bool
  mfaToken : String
  accessToken : Option String
deriving DecidableEq

/-- Go `strings.TrimSpace`: strips whitespace from both ends. -/
def trimSpace (s : String) : String :=
  String.mk (((s.toList.dropWhile (fun c => c.isWhitespace)).reverse.dropWhile
    (fun c => c.isWhitespace)).reverse)

/-- `subnetLogin`, with terminal reads and the two POSTs abstracted:
`usernameLine` is the line read from stdin (trimmed by the source),
`loginRes` the outcome of the POST to `/api/auth/login`, and `mfaRes` the
outcome of the POST to `/api/auth/mfa-login` (consulted only when the login
response requires MFA).  The second component counts the requests issued to
the MFA endpoint. -/
def subnetLogin (usernameLine : String)
    (loginRes : Except String SubnetLoginResp)
    (mfaRes : Except String SubnetLoginResp) :
    Except String String × Nat :=
  let username := trimSpace usernameLine
  if username.length = 0 then
    (.error "Username cannot be empty. If you don't have one, please create one from here: https://min.io/subscription", 0)
  else
    match loginRes with
    | .error e => (.error e, 0)
    | .ok resp =>
      if resp.mfaRequired then
        match mfaRes with
        | .error e => (.error e, 1)
        | .ok resp2 =>
          (match resp2.accessToken with
           | some t => .ok t
           | none => .error "access token not found in response", 1)
      else
        (match resp.accessToken with
         | some t => .ok t
         | none => .error "access token not found in response", 0)

/-! Organization / account-ID resolution (`getSubnetAccID`). -/

/-- Outcome of a Go call that may also crash at runtime: a value, a
returned non-nil `error`, or a runtime panic (out-of-range indexing). -/
inductive GoResult (α : Type) where
  | ok (a : α)
  | err (msg : String)
  | crash
deriving DecidableEq

/-- One organization from the `/api/auth/organizations` response: the
`company` and `accountId` fields read via `gjson`. -/
structure SubnetOrg where
  company : String
  accountId : String
deriving DecidableEq

/-- Go `strings.Trim(s, "\n")`: strips newline bytes from both ends. -/
def trimNewlines (s : String) : String :=
  String.mk (((s.toList.dropWhile (fun c => c = '\n')).reverse.dropWhile
    (fun c => c = '\n')).reverse)

/-- Go `strconv.Atoi`: an optional sign followed by at least one decimal
digit, rejecting anything else, and failing (with a non-nil error) when the
value overflows a 64-bit `int`. -/
def goAtoi (s : String) : Option Int :=
  match s.toList with
  | [] => none
  | c :: rest =>
    let signed : Bool × List Char :=
      if c = '-' then (true, rest)
      else if c = '+' then (false, rest) else (false, c :: rest)
    if signed.2 = [] then none
    else if signed.2.all (fun d => d.isDigit) then
      let n : Nat := signed.2.foldl (fun a d => a * 10 + (d.toNat - 48)) 0
      let v : Int := if signed.1 then -(n : Int) else (n : Int)
      if v < -(2 ^ 63) ∨ 2 ^ 63 - 1 < v then none else some v
    else none

/-- `getSubnetAccID`: `getRes` is the outcome of the GET on the
organizations endpoint (body already parsed into the `gjson` array view),
`inputLine` the line read from stdin when more than one organization is
listed.  `idx` starts at `1`; with more than one organization it is
re-assigned from `strconv.Atoi` and only the `idx > len(orgs)` bound is
checked, so the final `orgs[idx-1]` access panics (models as `.crash`) for
`idx ≤ 0` — and also for an empty organization list, where `orgs[0]` is
already out of range. -/
def getSubnetAccID (getRes : Except String (List SubnetOrg))
    (inputLine : String) : GoResult String :=
  match getRes with
  | .error e => .err e
  | .ok orgs =>
    if orgs.length > 1 then
      match goAtoi (trimNewlines inputLine) with
      | none => .err "invalid syntax"
      | some idx =>
        if idx > (orgs.length : Int) then
          .err "Invalid choice for organization. Please run the command again."
        else if h : 1 ≤ idx ∧ idx ≤ (orgs.length : Int) then
          .ok (orgs.get ⟨(idx - 1).toNat, by omega⟩).accountId
        else .crash
    else
      match orgs with
      | [] => .crash
      | o :: _ => .ok o.accountId

/-! Cluster-info aggregation (`getClusterRegInfo`, `getDriveSpaceInfo`). -/

/-- One disk of `madmin.InfoMessage`: the `TotalSpace`/`UsedSpace` counters
(Go `uint64`, so values below `2^64`). -/
structure DiskInfo where
  totalSpace : Nat
  usedSpace : Nat
deriving DecidableEq

/-- One server of `madmin.InfoMessage.Servers`: its version string (a Go
string, i.e. bytes), pool number (a non-negative Go `int`) and disks. -/
structure ServerProperties where
  version : ByteStr
  poolNumber : Nat
  disks : List DiskInfo
deriving DecidableEq

/-- The slice of `madmin.InfoMessage` consumed by the aggregation. -/
structure InfoMessage where
  deploymentID : ByteStr
  servers : List ServerProperties
  usageSize : Nat
  bucketsCount : Nat
  objectsCount : Nat
deriving DecidableEq

/-- Nested `ClusterInfo` of the registration payload.  The struct's own
definition is not among the sources; its fields follow the spec's data
model (version, pool count, server count, drive count, total/used drive
space, bucket count, object count). -/
structure ClusterInfo where
  minioVersion : ByteStr
  noOfServerPools : Nat
  noOfServers : Nat
  noOfDrives : Nat
  totalDriveSpace : Nat
  usedDriveSpace : Nat
  noOfBuckets : Nat
  noOfObjects : Nat
deriving DecidableEq

/-- `ClusterRegistrationInfo` of the registration payload (fields per the
spec's data model: deployment ID, cluster name, used capacity, nested
cluster info). -/
structure ClusterRegistrationInfo where
  deploymentID : ByteStr
  clusterName : ByteStr
  usedCapacity : Nat
  info : ClusterInfo
deriving DecidableEq

/-- `getDriveSpaceInfo`: accumulates `TotalSpace`/`UsedSpace` over every
disk of every server in two `uint64` counters (addition modulo `2^64`). -/
def getDriveSpaceInfo (admInfo : InfoMessage) : Nat × Nat :=
  admInfo.servers.foldl
    (fun acc srvr => srvr.disks.foldl
      (fun acc2 d => ((acc2.1 + d.totalSpace) % 2 ^ 64,
                      (acc2.2 + d.usedSpace) % 2 ^ 64))
      acc)
    (0, 0)

/-- `getClusterRegInfo`: pool count starts at `1` and is raised to any
larger observed `PoolNumber`; drive count sums the per-server disk counts;
then the record is assembled, reading `admInfo.Servers[0].Version`.  That
index is out of range for an empty server list — the Go code panics there,
modelled as `none`. -/
def getClusterRegInfo (admInfo : InfoMessage) (clusterName : ByteStr) :
    Option ClusterRegistrationInfo :=
  let noOfPools := admInfo.servers.foldl
    (fun acc srvr => if srvr.poolNumber > acc then srvr.poolNumber else acc) 1
  let noOfDrives := admInfo.servers.foldl
    (fun acc srvr => acc + srvr.disks.length) 0
  let spaces := getDriveSpaceInfo admInfo
  match admInfo.servers with
  | [] => none
  | s0 :: _ =>
    let ci : ClusterInfo :=
      { minioVersion := s0.version
        noOfServerPools := noOfPools
        noOfServers := admInfo.servers.length
        noOfDrives := noOfDrives
        totalDriveSpace := spaces.1
        usedDriveSpace := spaces.2
        noOfBuckets := admInfo.bucketsCount
        noOfObjects := admInfo.objectsCount }
    let r : ClusterRegistrationInfo :=
      { deploymentID := admInfo.deploymentID
        clusterName := clusterName
        usedCapacity := admInfo.usageSize
        info := ci }
    some r

/-! Registration-token generation (`generateRegToken`): `json.Marshal`
followed by `base64.StdEncoding.EncodeToString`. -/

/-- Bytes of an ASCII string literal. -/
def strBytes (s : String) : ByteStr :=
  s.toList.map (fun c => c.toNat)

/-- JSON string escaping for one byte: quote and backslash are escaped,
every other byte passes through. -/
def escByte (b : Nat) : ByteStr :=
  if b = 34 then [92, 34]
  else if b = 92 then [92, 92]
  else [b]

/-- JSON string escaping of a byte string. -/
def escBytes (s : ByteStr) : ByteStr :=
  s.flatMap escByte

/-- Decimal digits of a natural number, as ASCII bytes. -/
def digitBytes (n : Nat) : ByteStr :=
  if n = 0 then [48] else (Nat.digits 10 n).reverse.map (fun d => d + 48)

/-- Emit one JSON string field: the literal prefix (punctuation, key, and
opening quote), the escaped value, and the closing quote. -/
def emitStrField (lit : ByteStr) (s : ByteStr) : ByteStr :=
  lit ++ (escBytes s ++ [34])

/-- Emit one JSON number field: the literal prefix, then decimal digits. -/
def emitNatField (lit : ByteStr) (n : Nat) : ByteStr :=
  lit ++ digitBytes n

/-- Literal introducing `deployment_id` (with the opening brace). -/
def jKeyDeploymentID : ByteStr := strBytes "\x7b\"deployment_id\":\""

/-- Literal introducing `cluster_name`. -/
def jKeyClusterName : ByteStr := strBytes ",\"cluster_name\":\""

/-- Literal introducing `used_capacity`. -/
def jKeyUsedCapacity : ByteStr := strBytes ",\"used_capacity\":"

/-- Literal introducing the nested `info` object and `minio_version`. -/
def jKeyInfoVersion : ByteStr := strBytes ",\"info\":\x7b\"minio_version\":\""

/-- Literal introducing `no_of_server_pools`. -/
def jKeyPools : ByteStr := strBytes ",\"no_of_server_pools\":"

/-- Literal introducing `no_of_servers`. -/
def jKeyServers : ByteStr := strBytes ",\"no_of_servers\":"

/-- Literal introducing `no_of_drives`. -/
def jKeyDrives : ByteStr := strBytes ",\"no_of_drives\":"

/-- Literal introducing `total_drive_space`. -/
def jKeyTotalSpace : ByteStr := strBytes ",\"total_drive_space\":"

/-- Literal introducing `used_drive_space`. -/
def jKeyUsedSpace : ByteStr := strBytes ",\"used_drive_space\":"

/-- Literal introducing `no_of_buckets`. -/
def jKeyBuckets : ByteStr := strBytes ",\"no_of_buckets\":"

/-- Literal introducing `no_of_objects`. -/
def jKeyObjects : ByteStr := strBytes ",\"no_of_objects\":"

/-- The two closing braces. -/
def jClose : ByteStr := strBytes "\x7d\x7d"

/-- Modelled from the spec: `json.Marshal` of the `ClusterRegistrationInfo`
struct.  The struct's declaration (and hence its JSON field tags) is not
among the sources, so the keys and their order follow the spec's data model
(§3); the encoder itself — a canonical structured byte form, deterministic
in its input — serializes each field in declaration order with JSON string
escaping and decimal numbers. -/
def jsonOfRegInfo (r : ClusterRegistrationInfo) : ByteStr :=
  emitStrField jKeyDeploymentID r.deploymentID ++
    (emitStrField jKeyClusterName r.clusterName ++
    (emitNatField jKeyUsedCapacity r.usedCapacity ++
    (emitStrField jKeyInfoVersion r.info.minioVersion ++
    (emitNatField jKeyPools r.info.noOfServerPools ++
    (emitNatField jKeyServers r.info.noOfServers ++
    (emitNatField jKeyDrives r.info.noOfDrives ++
    (emitNatField jKeyTotalSpace r.info.totalDriveSpace ++
    (emitNatField jKeyUsedSpace r.info.usedDriveSpace ++
    (emitNatField jKeyBuckets r.info.noOfBuckets ++
    (emitNatField jKeyObjects r.info.noOfObjects ++ jClose))))))))))

/-- The standard base64 alphabet: sextet to ASCII byte. -/
def b64Char (s : Nat) : Nat :=
  if s < 26 then 65 + s
  else if s < 52 then 97 + (s - 26)
  else if s < 62 then 48 + (s - 52)
  else if s = 62 then 43
  else 47

/-- Inverse of the base64 alphabet (`none` off-alphabet, `=` included). -/
def b64DecChar (c : Nat) : Option Nat :=
  if 65 ≤ c ∧ c ≤ 90 then some (c - 65)
  else if 97 ≤ c ∧ c ≤ 122 then some (26 + (c - 97))
  else if 48 ≤ c ∧ c ≤ 57 then some (52 + (c - 48))
  else if c = 43 then some 62
  else if c = 47 then some 63
  else none

/-- `base64.StdEncoding.EncodeToString`: three bytes become four alphabet
characters; a trailing group of one or two bytes is padded with `=`. -/
def base64Encode : ByteStr → ByteStr
  | [] => []
  | [a] => [b64Char (a / 4), b64Char (a % 4 * 16), 61, 61]
  | [a, b] => [b64Char (a / 4), b64Char (a % 4 * 16 + b / 16),
               b64Char (b % 16 * 4), 61]
  | a :: b :: c :: rest =>
    b64Char (a / 4) :: b64Char (a % 4 * 16 + b / 16) ::
      b64Char (b % 16 * 4 + c / 64) :: b64Char (c % 64) :: base64Encode rest

/-- Modelled from the spec: standard base64 decoding (the registry-side
decode of a registration token is not among the sources).  Four characters
yield three bytes; `=` padding at the end yields one or two. -/
def base64Decode : ByteStr → Option (List Nat)
  | [] => some []
  | c1 :: c2 :: c3 :: c4 :: rest =>
    match b64DecChar c1, b64DecChar c2 with
    | some s1, some s2 =>
      if c3 = 61 ∧ c4 = 61 ∧ rest = [] then some [s1 * 4 + s2 / 16]
      else
        match b64DecChar c3 with
        | some s3 =>
          if c4 = 61 ∧ rest = [] then
            some [s1 * 4 + s2 / 16, s2 % 16 * 16 + s3 / 4]
          else
            match b64DecChar c4, base64Decode rest with
            | some s4, some bs =>
              some ((s1 * 4 + s2 / 16) :: (s2 % 16 * 16 + s3 / 4) ::
                    (s3 % 4 * 64 + s4) :: bs)
            | _, _ => none
        | none => none
    | _, _ => none
  | _ => none

/-- `generateRegToken`: `json.Marshal` the registration info, then
base64-encode the bytes.  (`json.Marshal` cannot fail on this typed struct,
so the Go error return is always nil.) -/
def generateRegToken (clusterRegInfo : ClusterRegistrationInfo) : ByteStr :=
  base64Encode (jsonOfRegInfo clusterRegInfo)

/-- Strip an exact literal prefix from the input. -/
def parseLit (lit input : ByteStr) : Option ByteStr :=
  if input.take lit.length = lit then some (input.drop lit.length) else none

/-- Parse a JSON string body (opening quote already consumed): an escape
introduces the next byte literally, an unescaped quote ends the string. -/
def parseStrBody : ByteStr → Option (ByteStr × ByteStr)
  | [] => none
  | b :: rest =>
    if b = 34 then some ([], rest)
    else if b = 92 then
      match rest with
      | [] => none
      | e :: rest2 =>
        (parseStrBody rest2).map (fun p => (e :: p.1, p.2))
    else (parseStrBody rest).map (fun p => (b :: p.1, p.2))

/-- Is the byte an ASCII decimal digit? -/
def isDigitByte (b : Nat) : Bool :=
  decide (48 ≤ b ∧ b ≤ 57)

/-- Greedily consume decimal digits, accumulating their value. -/
def parseNatLoop : ByteStr → Nat → Nat × ByteStr
  | [], acc => (acc, [])
  | b :: rest, acc =>
    if isDigitByte b then parseNatLoop rest (acc * 10 + (b - 48))
    else (acc, b :: rest)

/-- Parse a decimal number (at least one digit required). -/
def parseNatBytes (input : ByteStr) : Option (Nat × ByteStr) :=
  match input with
  | [] => none
  | b :: _ => if isDigitByte b then some (parseNatLoop input 0) else none

/-- Parse one JSON string field (literal prefix then quoted string). -/
def parseStrField (lit input : ByteStr) : Option (ByteStr × ByteStr) :=
  (parseLit lit input).bind parseStrBody

/-- Parse one JSON number field (literal prefix then decimal number). -/
def parseNatField (lit input : ByteStr) : Option (Nat × ByteStr) :=
  (parseLit lit input).bind parseNatBytes

/-- Modelled from the spec: the deserializer inverse to `jsonOfRegInfo`
(the registry-side parse of the registration payload is not among the
sources).  It consumes the fields in order and requires the input to be
fully consumed. -/
def parseRegInfoBytes (input : ByteStr) : Option ClusterRegistrationInfo := do
  let (d, r1) ← parseStrField jKeyDeploymentID input
  let (cn, r2) ← parseStrField jKeyClusterName r1
  let (uc, r3) ← parseNatField jKeyUsedCapacity r2
  let (mv, r4) ← parseStrField jKeyInfoVersion r3
  let (np, r5) ← parseNatField jKeyPools r4
  let (ns, r6) ← parseNatField jKeyServers r5
  let (nd, r7) ← parseNatField jKeyDrives r6
  let (ts, r8) ← parseNatField jKeyTotalSpace r7
  let (us, r9) ← parseNatField jKeyUsedSpace r8
  let (nb, r10) ← parseNatField jKeyBuckets r9
  let (no, r11) ← parseNatField jKeyObjects r10
  let r12 ← parseLit jClose r11
  if r12 = [] then
    let ci : ClusterInfo :=
      { minioVersion := mv, noOfServerPools := np, noOfServers := ns,
        noOfDrives := nd, totalDriveSpace := ts, usedDriveSpace := us,
        noOfBuckets := nb, noOfObjects := no }
    some { deploymentID := d, clusterName := cn, usedCapacity := uc, info := ci }
  else none

/-- Modelled from the spec: decoding a registration token — base64-decode,
then deserialize the `ClusterRegistrationInfo`. -/
def decodeRegToken (tok : ByteStr) : Option ClusterRegistrationInfo :=
  (base64Decode tok).bind parseRegInfoBytes

/-- Well-formedness of a registration payload as produced by the Go tool:
its string fields are byte strings (every byte below 256). -/
def RegInfoWF (r : ClusterRegistrationInfo) : Prop :=
  (∀ b ∈ r.deploymentID, b < 256) ∧ (∀ b ∈ r.clusterName, b < 256) ∧
    (∀ b ∈ r.info.minioVersion, b < 256)

instance (r : ClusterRegistrationInfo) : Decidable (RegInfoWF r) := by
  unfold RegInfoWF; infer_instance

theorem cacheLookup_mem {l : List (Nat × Nat)} {k c : Nat}
    (h : cacheLookup l k = some c) : (k, c) ∈ l := by
  induction l with
  | nil => simp [cacheLookup] at h
  | cons p rest ih =>
    obtain ⟨ph, pc⟩ := p
    by_cases hk : ph = k
    · subst hk
      simp [cacheLookup] at h
      simp [h]
    · simp [cacheLookup, hk] at h
      exact List.mem_cons_of_mem _ (ih h)

theorem adminCacheInv_init : AdminCacheInv initAdminFactoryState := by
  constructor <;> simp [initAdminFactoryState]

theorem adminCacheInv_step (f : Bool) (st : AdminFactoryState) (cfg : AdminConfig)
    (hinv : AdminCacheInv st) : AdminCacheInv (s3AdminNew f st cfg).2 := by
  obtain ⟨h1, h2⟩ := hinv
  cases hc : cacheLookup st.clientCache (confFingerprint cfg) with
  | some api => simp only [s3AdminNew, hc]; exact ⟨h1, h2⟩
  | none =>
    cases f with
    | true => simp only [s3AdminNew, hc, if_pos]; exact ⟨h1, h2⟩
    | false =>
      simp only [s3AdminNew, hc, Bool.false_eq_true, if_false]
      constructor
      · intro p hp
        rcases List.mem_cons.mp hp with hp | hp
        · subst hp; exact Nat.lt_succ_self _
        · exact Nat.lt_trans (h1 p hp) (Nat.lt_succ_self _)
      · intro p hp q hq hne
        rcases List.mem_cons.mp hp with hp | hp <;>
          rcases List.mem_cons.mp hq with hq | hq
        · subst hp; subst hq; simp at hne
        · subst hp; exact Nat.ne_of_gt (h1 q hq)
        · subst hq; exact Nat.ne_of_lt (h1 p hp)
        · exact h2 p hp q hq hne

theorem adminCacheInv_run (calls : List (Bool × AdminConfig)) :
    AdminCacheInv (runAdminCalls calls) := by
  suffices h : ∀ st, AdminCacheInv st →
      AdminCacheInv (calls.foldl (fun st c => (s3AdminNew c.1 st c.2).2) st) by
    exact h _ adminCacheInv_init
  induction calls with
  | nil => intro st h; simpa using h
  | cons c rest ih =>
    intro st h
    exact ih _ (adminCacheInv_step c.1 st c.2 h)

theorem s3AdminNew_cached_after {f : Bool} {st : AdminFactoryState}
    {cfg : AdminConfig} {r : Nat} (h : (s3AdminNew f st cfg).1 = some r) :
    cacheLookup ((s3AdminNew f st cfg).2).clientCache (confFingerprint cfg) = some r := by
  cases hc : cacheLookup st.clientCache (confFingerprint cfg) with
  | some api =>
    simp only [s3AdminNew, hc] at h ⊢
    exact h
  | none =>
    cases f with
    | true => simp [s3AdminNew, hc] at h
    | false =>
      simp only [s3AdminNew, hc, Bool.false_eq_true, if_false] at h ⊢
      simp only [Option.some.injEq] at h
      simp [cacheLookup, h]

theorem s3AdminNew_of_cached {f : Bool} {st : AdminFactoryState}
    {cfg : AdminConfig} {r : Nat}
    (h : cacheLookup st.clientCache (confFingerprint cfg) = some r) :
    s3AdminNew f st cfg = (some r, st) := by
  simp [s3AdminNew, h]

theorem s3AdminNew_distinct {st1 : AdminFactoryState} (hinv1 : AdminCacheInv st1)
    {k1 r1 : Nat} (hmem1 : (k1, r1) ∈ st1.clientCache)
    {f2 : Bool} {cfg2 : AdminConfig} {r2 : Nat}
    (h2 : (s3AdminNew f2 st1 cfg2).1 = some r2)
    (hfp : k1 ≠ confFingerprint cfg2) : r1 ≠ r2 := by
  obtain ⟨hlt, hinj⟩ := hinv1
  cases hc2 : cacheLookup st1.clientCache (confFingerprint cfg2) with
  | some api =>
    rw [s3AdminNew_of_cached hc2] at h2
    simp only [Option.some.injEq] at h2
    subst h2
    exact hinj _ hmem1 _ (cacheLookup_mem hc2) hfp
  | none =>
    cases f2 with
    | true => simp [s3AdminNew, hc2] at h2
    | false =>
      simp only [s3AdminNew, hc2, Bool.false_eq_true, if_false] at h2
      simp only [Option.some.injEq] at h2
      have := hlt _ hmem1
      omega

/-- Claim C1, as stated, is false: the fingerprint hashes the separator-free
concatenation `host + accessKey + secretKey`, so the distinct tuples
`("ab", "c", "")` and `("a", "bc", "")` concatenate to the same bytes, get
the same cache key, and the second call returns the first call's client. -/
theorem adminCache_distinct_tuples_shared_instance :
    (AdminConfig.mk [97, 98] [99] []).host ≠ (AdminConfig.mk [97] [98, 99] []).host ∧
    (s3AdminNew false initAdminFactoryState (AdminConfig.mk [97, 98] [99] [])).1 = some 0 ∧
    (s3AdminNew false
      (s3AdminNew false initAdminFactoryState (AdminConfig.mk [97, 98] [99] [])).2
      (AdminConfig.mk [97] [98, 99] [])).1 = some 0 := by
  decide

/-- Claim C1 (amended): over states satisfying the cache invariant (which
holds for every reachable state), two successful consecutive calls return
the same client exactly when the configs' fingerprints — FNV-1a-32 of the
separator-free concatenation of host, access key and secret key — agree; in
particular identical tuples always share one instance, while distinct
tuples get distinct instances only when their fingerprints differ. -/
theorem adminCache_fingerprint_determines_instance
    (st : AdminFactoryState) (f1 f2 : Bool) (cfg1 cfg2 : AdminConfig)
    (r1 r2 : Nat) (hinv : AdminCacheInv st)
    (h1 : (s3AdminNew f1 st cfg1).1 = some r1)
    (h2 : (s3AdminNew f2 (s3AdminNew f1 st cfg1).2 cfg2).1 = some r2) :
    (cfg1.host = cfg2.host → cfg1.accessKey = cfg2.accessKey →
      cfg1.secretKey = cfg2.secretKey → r1 = r2) ∧
    (confFingerprint cfg1 ≠ confFingerprint cfg2 → r1 ≠ r2) := by
  have hcached : cacheLookup ((s3AdminNew f1 st cfg1).2).clientCache
      (confFingerprint cfg1) = some r1 := s3AdminNew_cached_after h1
  have hinv1 : AdminCacheInv (s3AdminNew f1 st cfg1).2 :=
    adminCacheInv_step f1 st cfg1 hinv
  constructor
  · intro hh ha hs
    have hfp : confFingerprint cfg1 = confFingerprint cfg2 := by
      unfold confFingerprint
      rw [hh, ha, hs]
    rw [hfp] at hcached
    rw [s3AdminNew_of_cached hcached] at h2
    simp only [Option.some.injEq] at h2
    exact h2
  · intro hfp
    exact s3AdminNew_distinct hinv1 (cacheLookup_mem hcached) h2 hfp

/-- Witness for C1's amended theorem: from the initial state, calls for the
hosts `[0]` and `[1]` (empty keys) succeed with clients `0` and `1`, and the
differing fingerprints force the instances apart. -/
theorem adminCache_fingerprint_determines_instance_witness :
    confFingerprint (AdminConfig.mk [0] [] []) ≠
      confFingerprint (AdminConfig.mk [1] [] []) ∧ (0 : Nat) ≠ 1 :=
  ⟨by decide,
    (adminCache_fingerprint_determines_instance initAdminFactoryState
      false false (AdminConfig.mk [0] [] []) (AdminConfig.mk [1] [] []) 0 1
      adminCacheInv_init (by decide) (by decide)).2 (by decide)⟩

theorem kvsLookup_find? (l : List ConfigKV) (k : String) :
    kvsLookup l k = match l.find? (fun kv => kv.key = k) with
      | some kv => (true, kv.value)
      | none => (false, "") := by
  induction l with
  | nil => rfl
  | cons kv rest ih =>
    by_cases h : kv.key = k
    · simp [kvsLookup, List.find?, h]
    · simpa [kvsLookup, List.find?, h] using ih

theorem getSubnetKeyFromMinIOConfig_spec (c : MinIOConfig) (key : String) :
    getSubnetKeyFromMinIOConfig c key = match serverHeldKey c key with
      | some kv => (true, kv.value)
      | none => (false, "") := by
  unfold getSubnetKeyFromMinIOConfig serverHeldKey
  by_cases h : minioConfigSupportsSubnet c
  · simp only [h, if_true]
    exact kvsLookup_find? c.subnetKVS key
  · simp [h]

/-- Claim C2: whenever the administered cluster's config schema contains the
`subnet` subsystem and that subsystem holds the requested key (`api_key` or
`license`), credential resolution returns the server-held value verbatim,
regardless of the local alias configuration; whenever the cluster does not
hold the key, the local alias configuration's value (possibly empty) is
returned unconditionally. -/
theorem subnet_key_server_precedence (c : MinIOConfig) (aliasCfg : AliasConfig) :
    (∀ kv, serverHeldKey c "api_key" = some kv →
      getSubnetAPIKeyFromConfig c aliasCfg = kv.value) ∧
    (serverHeldKey c "api_key" = none →
      getSubnetAPIKeyFromConfig c aliasCfg = aliasCfg.apiKey) ∧
    (∀ kv, serverHeldKey c "license" = some kv →
      getSubnetLicenseFromConfig c aliasCfg = kv.value) ∧
    (serverHeldKey c "license" = none →
      getSubnetLicenseFromConfig c aliasCfg = aliasCfg.license) := by
  refine ⟨?_, ?_, ?_, ?_⟩
  · intro kv hkv
    unfold getSubnetAPIKeyFromConfig
    rw [getSubnetKeyFromMinIOConfig_spec, hkv]
    simp
  · intro hnone
    unfold getSubnetAPIKeyFromConfig
    rw [getSubnetKeyFromMinIOConfig_spec, hnone]
    simp
  · intro kv hkv
    unfold getSubnetLicenseFromConfig
    rw [getSubnetKeyFromMinIOConfig_spec, hkv]
    simp
  · intro hnone
    unfold getSubnetLicenseFromConfig
    rw [getSubnetKeyFromMinIOConfig_spec, hnone]
    simp

/-- Witness for C2: a cluster whose `subnet` subsystem holds
`api_key = "SRV"` wins over the local value `"LOCAL-K"`, and a cluster whose
schema has no `subnet` subsystem falls back to the local license. -/
theorem subnet_key_server_precedence_witness :
    getSubnetAPIKeyFromConfig
      (MinIOConfig.mk ["region", "subnet"] [ConfigKV.mk "api_key" "SRV"])
      (AliasConfig.mk "LOCAL-K" "LOCAL-L") = "SRV" ∧
    getSubnetLicenseFromConfig
      (MinIOConfig.mk ["region"] [ConfigKV.mk "license" "SRV-L"])
      (AliasConfig.mk "LOCAL-K" "LOCAL-L") = "LOCAL-L" :=
  ⟨(subnet_key_server_precedence
      (MinIOConfig.mk ["region", "subnet"] [ConfigKV.mk "api_key" "SRV"])
      (AliasConfig.mk "LOCAL-K" "LOCAL-L")).1
      (ConfigKV.mk "api_key" "SRV") (by decide),
   (subnet_key_server_precedence
      (MinIOConfig.mk ["region"] [ConfigKV.mk "license" "SRV-L"])
      (AliasConfig.mk "LOCAL-K" "LOCAL-L")).2.2.2 (by decide)⟩

/-- Claim C3: authorization-URL construction applies exactly one of three
mutually exclusive strategies in fixed order — a non-empty API key is
appended as a query parameter (the other inputs are never consulted); else
a non-empty license is appended as a query parameter; else the interactive
login runs and, on success, its token becomes an `Authorization: Bearer`
header together with the account-ID query parameter. -/
theorem subnetURLWithAuth_strategy_order (reqURL apiKey license : String)
    (loginRes accRes : Except String String) :
    (apiKey.length > 0 →
      subnetURLWithAuth reqURL apiKey license loginRes accRes =
        (reqURL ++ "?api_key=" ++ apiKey, some [], none)) ∧
    (apiKey.length = 0 → license.length > 0 →
      subnetURLWithAuth reqURL apiKey license loginRes accRes =
        (reqURL ++ "?license=" ++ license, some [], none)) ∧
    (apiKey.length = 0 → license.length = 0 → ∀ token accID,
      loginRes = .ok token → accRes = .ok accID →
      subnetURLWithAuth reqURL apiKey license loginRes accRes =
        (reqURL ++ "?aid=" ++ accID, some (subnetAuthHeaders token), none)) := by
  refine ⟨?_, ?_, ?_⟩
  · intro hk
    simp [subnetURLWithAuth, hk]
  · intro hk hl
    simp [subnetURLWithAuth, hk, hl]
  · intro hk hl token accID hlogin hacc
    subst hlogin
    subst hacc
    simp [subnetURLWithAuth, hk, hl]

/-- Witness for C3: each of the three strategies at concrete inputs. -/
theorem subnetURLWithAuth_strategy_order_witness :
    subnetURLWithAuth "u" "KEY" "LIC" (.error "x") (.error "y") =
      ("u?api_key=KEY", some [], none) ∧
    subnetURLWithAuth "u" "" "LIC" (.error "x") (.error "y") =
      ("u?license=LIC", some [], none) ∧
    subnetURLWithAuth "u" "" "" (.ok "TOK") (.ok "AID") =
      ("u?aid=AID", some (subnetAuthHeaders "TOK"), none) :=
  ⟨(subnetURLWithAuth_strategy_order "u" "KEY" "LIC" (.error "x") (.error "y")).1
      (by decide),
   (subnetURLWithAuth_strategy_order "u" "" "LIC" (.error "x") (.error "y")).2.1
      (by decide) (by decide),
   (subnetURLWithAuth_strategy_order "u" "" "" (.ok "TOK") (.ok "AID")).2.2
      (by decide) (by decide) "TOK" "AID" rfl rfl⟩

/-- Claim C4 fails on the code: with no API key and no license, a successful
login followed by a failing account-ID (organization) lookup makes
`subnetURLWithAuth` return a nil error (the source returns `e`, the already
nil login error, instead of `err`) together with an empty, unusable URL. -/
theorem subnetURLWithAuth_accid_error_dropped :
    subnetURLWithAuth "https://subnet.min.io/api/cluster/register" "" ""
      (.ok "token0") (.error "organizations lookup failed") =
    ("", some (subnetAuthHeaders "token0"), none) := rfl

/-- Claim C7: the login flow issues exactly one request to the MFA endpoint
when the login response demands MFA and none otherwise; without MFA the
token of the login response is returned; with MFA the token is extracted
from the MFA response, the most recent one. -/
theorem subnetLogin_mfa_flow (usernameLine : String)
    (loginRes mfaRes : Except String SubnetLoginResp) (resp : SubnetLoginResp)
    (hu : (trimSpace usernameLine).length ≠ 0) (hl : loginRes = .ok resp) :
    (subnetLogin usernameLine loginRes mfaRes).2 =
      (if resp.mfaRequired then 1 else 0) ∧
    (resp.mfaRequired = false → ∀ t, resp.accessToken = some t →
      (subnetLogin usernameLine loginRes mfaRes).1 = .ok t) ∧
    (resp.mfaRequired = true → ∀ resp2, mfaRes = .ok resp2 →
      ∀ t, resp2.accessToken = some t →
      (subnetLogin usernameLine loginRes mfaRes).1 = .ok t) := by
  subst hl
  refine ⟨?_, ?_, ?_⟩
  · cases hm : resp.mfaRequired with
    | false =>
      simp only [subnetLogin, if_neg hu, hm, Bool.false_eq_true, if_false]
    | true =>
      cases mfaRes with
      | error e => simp [subnetLogin, hu, hm]
      | ok resp2 => cases h2 : resp2.accessToken <;> simp [subnetLogin, hu, hm, h2]
  · intro hm t ht
    simp [subnetLogin, hu, hm, ht]
  · intro hm resp2 hmfa t ht
    subst hmfa
    simp [subnetLogin, hu, hm, ht]

/-- Witness for C7: a no-MFA login returning `TOK` issues zero MFA requests
and yields `TOK`; an MFA-demanding login issues exactly one MFA request and
yields the MFA response's token `NEW`. -/
theorem subnetLogin_mfa_flow_witness :
    (subnetLogin "alice" (.ok (SubnetLoginResp.mk false "" (some "TOK")))
      (.error "unused")).2 = 0 ∧
    (subnetLogin "alice" (.ok (SubnetLoginResp.mk false "" (some "TOK")))
      (.error "unused")).1 = .ok "TOK" ∧
    (subnetLogin "alice" (.ok (SubnetLoginResp.mk true "mfa-tok" (some "OLD")))
      (.ok (SubnetLoginResp.mk false "" (some "NEW")))).2 = 1 ∧
    (subnetLogin "alice" (.ok (SubnetLoginResp.mk true "mfa-tok" (some "OLD")))
      (.ok (SubnetLoginResp.mk false "" (some "NEW")))).1 = .ok "NEW" :=
  ⟨(subnetLogin_mfa_flow "alice" _ (.error "unused")
      (SubnetLoginResp.mk false "" (some "TOK")) (by decide) rfl).1,
   (subnetLogin_mfa_flow "alice" _ (.error "unused")
      (SubnetLoginResp.mk false "" (some "TOK")) (by decide) rfl).2.1 rfl "TOK" rfl,
   (subnetLogin_mfa_flow "alice" _ (.ok (SubnetLoginResp.mk false "" (some "NEW")))
      (SubnetLoginResp.mk true "mfa-tok" (some "OLD")) (by decide) rfl).1,
   (subnetLogin_mfa_flow "alice" _ (.ok (SubnetLoginResp.mk false "" (some "NEW")))
      (SubnetLoginResp.mk true "mfa-tok" (some "OLD")) (by decide) rfl).2.2 rfl
      (SubnetLoginResp.mk false "" (some "NEW")) rfl "NEW" rfl⟩

/-- Claim C5 fails on the code: `getSubnetAccID` only validates
`idx > len(orgs)`, never `idx < 1`, so with three organizations the parsed
selection `0` reaches `orgs[idx-1] = orgs[-1]` and panics instead of
producing an input error. -/
theorem getSubnetAccID_nonpositive_selection_crashes :
    getSubnetAccID
      (.ok [SubnetOrg.mk "org1" "acc1", SubnetOrg.mk "org2" "acc2",
            SubnetOrg.mk "org3" "acc3"]) "0\n" = .crash := by decide

/-- Claim C6 fails on the code: with zero organizations `getSubnetAccID`
skips the selection prompt (the list is not longer than one), keeps
`idx = 1`, and evaluates `orgs[0]` on the empty list — a runtime panic, not
a "no organization" error. -/
theorem getSubnetAccID_empty_orgs_crashes :
    getSubnetAccID (.ok ([] : List SubnetOrg)) "" = .crash := by decide

theorem foldl_poolNumber (l : List ServerProperties) (a : Nat) :
    l.foldl (fun acc s => if s.poolNumber > acc then s.poolNumber else acc) a =
      max a ((l.map (fun s => s.poolNumber)).foldr max 0) := by
  induction l generalizing a with
  | nil => simp
  | cons s t ih =>
    simp only [List.foldl_cons, List.map_cons, List.foldr_cons]
    rw [ih]
    have hstep : (if s.poolNumber > a then s.poolNumber else a) =
        max a s.poolNumber := by
      split <;> omega
    rw [hstep]
    omega

theorem foldl_disksLength (l : List ServerProperties) (a : Nat) :
    l.foldl (fun acc s => acc + s.disks.length) a =
      a + (l.map (fun s => s.disks.length)).sum := by
  induction l generalizing a with
  | nil => simp
  | cons s t ih =>
    simp only [List.foldl_cons, List.map_cons, List.sum_cons]
    rw [ih]
    omega

theorem foldl_diskSpace (disks : List DiskInfo) (x y : Nat)
    (hx : x < 2 ^ 64) (hy : y < 2 ^ 64) :
    disks.foldl (fun acc2 d => ((acc2.1 + d.totalSpace) % 2 ^ 64,
        (acc2.2 + d.usedSpace) % 2 ^ 64)) (x, y) =
      ((x + (disks.map (fun d => d.totalSpace)).sum) % 2 ^ 64,
       (y + (disks.map (fun d => d.usedSpace)).sum) % 2 ^ 64) := by
  induction disks generalizing x y with
  | nil =>
    simp only [List.foldl_nil, List.map_nil, List.sum_nil, Nat.add_zero]
    rw [Nat.mod_eq_of_lt hx, Nat.mod_eq_of_lt hy]
  | cons d t ih =>
    simp only [List.foldl_cons, List.map_cons, List.sum_cons]
    rw [ih ((x + d.totalSpace) % 2 ^ 64) ((y + d.usedSpace) % 2 ^ 64)
      (Nat.mod_lt _ (by norm_num)) (Nat.mod_lt _ (by norm_num))]
    rw [Nat.mod_add_mod, Nat.mod_add_mod]
    rw [Nat.add_assoc, Nat.add_assoc]

theorem getDriveSpaceInfo_spec (admInfo : InfoMessage) :
    getDriveSpaceInfo admInfo =
      (((admInfo.servers.map
          (fun s => (s.disks.map (fun d => d.totalSpace)).sum)).sum) % 2 ^ 64,
       ((admInfo.servers.map
          (fun s => (s.disks.map (fun d => d.usedSpace)).sum)).sum) % 2 ^ 64) := by
  unfold getDriveSpaceInfo
  suffices h : ∀ (l : List ServerProperties) (x y : Nat),
      x < 2 ^ 64 → y < 2 ^ 64 →
      l.foldl (fun acc srvr => srvr.disks.foldl
          (fun acc2 d => ((acc2.1 + d.totalSpace) % 2 ^ 64,
            (acc2.2 + d.usedSpace) % 2 ^ 64)) acc) (x, y) =
        ((x + (l.map (fun s => (s.disks.map (fun d => d.totalSpace)).sum)).sum) % 2 ^ 64,
         (y + (l.map (fun s => (s.disks.map (fun d => d.usedSpace)).sum)).sum) % 2 ^ 64) by
    have := h admInfo.servers 0 0 (by norm_num) (by norm_num)
    simpa using this
  intro l
  induction l with
  | nil =>
    intro x y hx hy
    simp only [List.foldl_nil, List.map_nil, List.sum_nil, Nat.add_zero]
    rw [Nat.mod_eq_of_lt hx, Nat.mod_eq_of_lt hy]
  | cons s t ih =>
    intro x y hx hy
    simp only [List.foldl_cons, List.map_cons, List.sum_cons]
    rw [foldl_diskSpace s.disks x y hx hy]
    rw [ih _ _ (Nat.mod_lt _ (by norm_num)) (Nat.mod_lt _ (by norm_num))]
    rw [Nat.mod_add_mod, Nat.mod_add_mod]
    rw [Nat.add_assoc, Nat.add_assoc]

/-- Claim C8: for any admin status with at least one server, aggregation
derives the pool count as the maximum observed pool index clamped to a
minimum of 1 (so never 0), and derives the drive count and the total/used
drive space as plain sums over every disk of every server (the space sums
in the `uint64` arithmetic of the source). -/
theorem getClusterRegInfo_aggregation (admInfo : InfoMessage)
    (clusterName : ByteStr) (s0 : ServerProperties)
    (tl : List ServerProperties) (hs : admInfo.servers = s0 :: tl) :
    ∃ r, getClusterRegInfo admInfo clusterName = some r ∧
      r.info.noOfServerPools =
        max 1 ((admInfo.servers.map (fun s => s.poolNumber)).foldr max 0) ∧
      1 ≤ r.info.noOfServerPools ∧
      r.info.noOfDrives = (admInfo.servers.map (fun s => s.disks.length)).sum ∧
      r.info.totalDriveSpace =
        ((admInfo.servers.map
          (fun s => (s.disks.map (fun d => d.totalSpace)).sum)).sum) % 2 ^ 64 ∧
      r.info.usedDriveSpace =
        ((admInfo.servers.map
          (fun s => (s.disks.map (fun d => d.usedSpace)).sum)).sum) % 2 ^ 64 := by
  unfold getClusterRegInfo
  rw [hs]
  refine ⟨_, rfl, ?_, ?_, ?_, ?_, ?_⟩
  · show (s0 :: tl).foldl
        (fun acc srvr => if srvr.poolNumber > acc then srvr.poolNumber else acc) 1 =
      max 1 (((s0 :: tl).map (fun s => s.poolNumber)).foldr max 0)
    exact foldl_poolNumber (s0 :: tl) 1
  · show 1 ≤ (s0 :: tl).foldl
        (fun acc srvr => if srvr.poolNumber > acc then srvr.poolNumber else acc) 1
    rw [foldl_poolNumber]
    omega
  · show (s0 :: tl).foldl (fun acc srvr => acc + srvr.disks.length) 0 =
      ((s0 :: tl).map (fun s => s.disks.length)).sum
    rw [foldl_disksLength]
    omega
  · show (getDriveSpaceInfo admInfo).1 =
      ((s0 :: tl).map (fun s => (s.disks.map (fun d => d.totalSpace)).sum)).sum % 2 ^ 64
    rw [getDriveSpaceInfo_spec, hs]
  · show (getDriveSpaceInfo admInfo).2 =
      ((s0 :: tl).map (fun s => (s.disks.map (fun d => d.usedSpace)).sum)).sum % 2 ^ 64
    rw [getDriveSpaceInfo_spec, hs]

/-- Witness for C8: the spec's example — pool indices `{1, 1, 2, 3}` across
four servers yield pool count 3, with 4 drives and summed spaces. -/
theorem getClusterRegInfo_aggregation_witness :
    (getClusterRegInfo
      (InfoMessage.mk [100]
        [ServerProperties.mk [118] 1 [DiskInfo.mk 10 5, DiskInfo.mk 20 6],
         ServerProperties.mk [118] 1 [DiskInfo.mk 30 7],
         ServerProperties.mk [118] 2 [],
         ServerProperties.mk [118] 3 [DiskInfo.mk 1 1]] 99 8 1000)
      [99]).map (fun r => (r.info.noOfServerPools, r.info.noOfDrives,
        r.info.totalDriveSpace, r.info.usedDriveSpace)) =
      some (3, 4, 61, 19) := by
  obtain ⟨r, hr, hp, _, hd, ht, hu⟩ := getClusterRegInfo_aggregation
    (InfoMessage.mk [100]
      [ServerProperties.mk [118] 1 [DiskInfo.mk 10 5, DiskInfo.mk 20 6],
       ServerProperties.mk [118] 1 [DiskInfo.mk 30 7],
       ServerProperties.mk [118] 2 [],
       ServerProperties.mk [118] 3 [DiskInfo.mk 1 1]] 99 8 1000)
    [99] (ServerProperties.mk [118] 1 [DiskInfo.mk 10 5, DiskInfo.mk 20 6])
    [ServerProperties.mk [118] 1 [DiskInfo.mk 30 7],
     ServerProperties.mk [118] 2 [],
     ServerProperties.mk [118] 3 [DiskInfo.mk 1 1]] rfl
  rw [hr]
  simp only [Option.map_some']
  rw [hp, hd, ht, hu]
  decide

/-- Claim C10: cluster-info aggregation reads `Servers[0].Version`
unconditionally, so it is defined exactly when the admin status has at
least one server — the empty server list makes the access out of bounds
(the embedded function returns `none` there, modelling the Go panic) — and
the produced record carries the first server's version. -/
theorem getClusterRegInfo_first_server_version (admInfo : InfoMessage)
    (clusterName : ByteStr) :
    (admInfo.servers = [] → getClusterRegInfo admInfo clusterName = none) ∧
    (∀ s0 tl, admInfo.servers = s0 :: tl →
      ∃ r, getClusterRegInfo admInfo clusterName = some r ∧
        r.info.minioVersion = s0.version) := by
  constructor
  · intro h
    unfold getClusterRegInfo
    rw [h]
  · intro s0 tl h
    unfold getClusterRegInfo
    rw [h]
    exact ⟨_, rfl, rfl⟩

/-- Witness for C10: the empty status yields `none`; a one-server status
yields a record carrying that server's version. -/
theorem getClusterRegInfo_first_server_version_witness :
    getClusterRegInfo (InfoMessage.mk [] [] 0 0 0) [] = none ∧
    ∃ r, getClusterRegInfo
        (InfoMessage.mk [] [ServerProperties.mk [118, 49] 1 []] 0 0 0) [] =
          some r ∧
      r.info.minioVersion = (ServerProperties.mk [118, 49] 1 []).version :=
  ⟨(getClusterRegInfo_first_server_version (InfoMessage.mk [] [] 0 0 0) []).1 rfl,
   (getClusterRegInfo_first_server_version
      (InfoMessage.mk [] [ServerProperties.mk [118, 49] 1 []] 0 0 0) []).2
      (ServerProperties.mk [118, 49] 1 []) [] rfl⟩

theorem b64DecChar_b64Char : ∀ s, s < 64 → b64DecChar (b64Char s) = some s := by
  decide

theorem b64Char_ne_61 (s : Nat) : b64Char s ≠ 61 := by
  unfold b64Char
  split_ifs <;> omega

theorem base64_roundtrip_aux :
    ∀ (n : Nat) (bs : ByteStr), bs.length ≤ n → (∀ b ∈ bs, b < 256) →
      base64Decode (base64Encode bs) = some bs := by
  intro n
  induction n with
  | zero =>
    intro bs hlen _
    have hnil : bs = [] := List.eq_nil_of_length_eq_zero (Nat.le_zero.mp hlen)
    subst hnil
    rfl
  | succ n ih =>
    intro bs hlen hwf
    match bs with
    | [] => rfl
    | [a] =>
      have ha : a < 256 := hwf a (by simp)
      have h1 := b64DecChar_b64Char (a / 4) (by omega)
      have h2 := b64DecChar_b64Char (a % 4 * 16) (by omega)
      simp only [base64Encode, base64Decode, h1, h2, and_self, if_true,
        Option.some.injEq, List.cons.injEq, and_true]
      omega
    | [a, b] =>
      have ha : a < 256 := hwf a (by simp)
      have hb : b < 256 := hwf b (by simp)
      have h1 := b64DecChar_b64Char (a / 4) (by omega)
      have h2 := b64DecChar_b64Char (a % 4 * 16 + b / 16) (by omega)
      have h3 := b64DecChar_b64Char (b % 16 * 4) (by omega)
      simp only [base64Encode, base64Decode, h1, h2, h3, b64Char_ne_61,
        false_and, and_false, if_false, and_self, if_true,
        Option.some.injEq, List.cons.injEq, and_true]
      omega
    | a :: b :: c :: rest =>
      have ha : a < 256 := hwf a (by simp)
      have hb : b < 256 := hwf b (by simp)
      have hc : c < 256 := hwf c (by simp)
      have h1 := b64DecChar_b64Char (a / 4) (by omega)
      have h2 := b64DecChar_b64Char (a % 4 * 16 + b / 16) (by omega)
      have h3 := b64DecChar_b64Char (b % 16 * 4 + c / 64) (by omega)
      have h4 := b64DecChar_b64Char (c % 64) (by omega)
      have hrec : base64Decode (base64Encode rest) = some rest := by
        refine ih rest ?_ (fun x hx => hwf x (by simp [hx]))
        have : (a :: b :: c :: rest).length ≤ n + 1 := hlen
        simp only [List.length_cons] at this
        omega
      simp only [base64Encode, base64Decode, h1, h2, h3, h4, hrec, b64Char_ne_61,
        false_and, and_false, if_false, Option.some.injEq, List.cons.injEq, and_true,
        and_self]
      omega

theorem base64Decode_encode (bs : ByteStr) (h : ∀ b ∈ bs, b < 256) :
    base64Decode (base64Encode bs) = some bs :=
  base64_roundtrip_aux bs.length bs le_rfl h

theorem parseLit_append (lit rest : ByteStr) :
    parseLit lit (lit ++ rest) = some rest := by
  unfold parseLit
  rw [List.take_left, List.drop_left]
  simp

theorem parseLit_self (lit : ByteStr) : parseLit lit lit = some [] := by
  have h := parseLit_append lit []
  rwa [List.append_nil] at h

theorem escBytes_cons (b : Nat) (s : ByteStr) :
    escBytes (b :: s) = escByte b ++ escBytes s := by
  simp [escBytes]

theorem parseStrBody_quote (rest : ByteStr) :
    parseStrBody (34 :: rest) = some ([], rest) := by
  rw [parseStrBody.eq_def]
  simp

theorem parseStrBody_esc (e : Nat) (L : ByteStr) :
    parseStrBody (92 :: e :: L) =
      (parseStrBody L).map (fun p => (e :: p.1, p.2)) := by
  rw [parseStrBody.eq_def]
  simp

theorem parseStrBody_other (b : Nat) (L : ByteStr) (hb : ¬b = 34)
    (hb' : ¬b = 92) :
    parseStrBody (b :: L) =
      (parseStrBody L).map (fun p => (b :: p.1, p.2)) := by
  rw [parseStrBody.eq_def]
  simp [hb, hb']

theorem parseStrBody_round (s rest : ByteStr) :
    parseStrBody (escBytes s ++ (34 :: rest)) = some (s, rest) := by
  induction s with
  | nil =>
    rw [show escBytes [] = [] from rfl, List.nil_append, parseStrBody_quote]
  | cons b s' ih =>
    rw [escBytes_cons, List.append_assoc]
    by_cases hb : b = 34
    · subst hb
      rw [show escByte 34 = [92, 34] from rfl]
      show parseStrBody (92 :: 34 :: (escBytes s' ++ (34 :: rest))) = _
      rw [parseStrBody_esc, ih]
      rfl
    · by_cases hb' : b = 92
      · subst hb'
        rw [show escByte 92 = [92, 92] from rfl]
        show parseStrBody (92 :: 92 :: (escBytes s' ++ (34 :: rest))) = _
        rw [parseStrBody_esc, ih]
        rfl
      · rw [show escByte b = [b] from by simp [escByte, hb, hb']]
        show parseStrBody (b :: (escBytes s' ++ (34 :: rest))) = _
        rw [parseStrBody_other b _ hb hb', ih]
        rfl

theorem parseNatLoop_split (ds : ByteStr) (hds : ∀ d ∈ ds, isDigitByte d = true)
    (rest : ByteStr) (hrest : ∀ b, rest.head? = some b → isDigitByte b = false) :
    ∀ acc, parseNatLoop (ds ++ rest) acc =
      (ds.foldl (fun a d => a * 10 + (d - 48)) acc, rest) := by
  induction ds with
  | nil =>
    intro acc
    simp only [List.nil_append, List.foldl_nil]
    cases rest with
    | nil => rfl
    | cons b r =>
      have hb := hrest b rfl
      simp [parseNatLoop, hb]
  | cons d ds' ih =>
    intro acc
    have hd := hds d (by simp)
    simp only [List.cons_append, parseNatLoop, hd, if_true, List.foldl_cons]
    exact ih (fun x hx => hds x (by simp [hx])) _

theorem digitBytes_digits (n : Nat) : ∀ d ∈ digitBytes n, isDigitByte d = true := by
  intro d hd
  unfold digitBytes at hd
  by_cases h : n = 0
  · simp [h] at hd
    subst hd
    rfl
  · simp only [h, if_false, List.mem_map, List.mem_reverse] at hd
    obtain ⟨x, hx, rfl⟩ := hd
    have hlt : x < 10 := Nat.digits_lt_base (by norm_num) hx
    simp only [isDigitByte, decide_eq_true_eq]
    omega

theorem digitBytes_ne_nil (n : Nat) : digitBytes n ≠ [] := by
  unfold digitBytes
  by_cases h : n = 0
  · simp [h]
  · simp [h, Nat.digits_ne_nil_iff_ne_zero]

theorem foldl_base10 (L : List Nat) (acc : Nat) :
    L.reverse.foldl (fun a d => a * 10 + d) acc =
      acc * 10 ^ L.length + Nat.ofDigits 10 L := by
  induction L generalizing acc with
  | nil => simp
  | cons d ds ih =>
    simp only [List.reverse_cons, List.foldl_append, List.foldl_cons,
      List.foldl_nil, List.length_cons, Nat.ofDigits_cons]
    rw [ih]
    ring

theorem digitBytes_val (n : Nat) :
    (digitBytes n).foldl (fun a d => a * 10 + (d - 48)) 0 = n := by
  unfold digitBytes
  by_cases h : n = 0
  · simp [h]
  · simp only [h, if_false]
    rw [List.foldl_map]
    have he : (fun (a : Nat) (x : Nat) => a * 10 + (x + 48 - 48)) =
        (fun (a : Nat) (x : Nat) => a * 10 + x) := by
      funext a x
      omega
    rw [he, foldl_base10]
    simp [Nat.ofDigits_digits]

theorem parseNatBytes_round (n : Nat) (rest : ByteStr)
    (hrest : ∀ b, rest.head? = some b → isDigitByte b = false) :
    parseNatBytes (digitBytes n ++ rest) = some (n, rest) := by
  obtain ⟨d, ds, hds⟩ : ∃ d ds, digitBytes n = d :: ds := by
    cases hd : digitBytes n with
    | nil => exact absurd hd (digitBytes_ne_nil n)
    | cons d ds => exact ⟨d, ds, rfl⟩
  have hall := digitBytes_digits n
  have hloop := parseNatLoop_split (digitBytes n) hall rest hrest 0
  have hval := digitBytes_val n
  rw [hds] at hall hloop hval ⊢
  have hd0 : isDigitByte d = true := hall d (by simp)
  simp only [List.cons_append, parseNatBytes, hd0, if_true]
  rw [List.cons_append] at hloop
  rw [hloop, hval]

theorem parseStrField_round (lit s rest : ByteStr) :
    parseStrField lit (emitStrField lit s ++ rest) = some (s, rest) := by
  unfold parseStrField emitStrField
  rw [List.append_assoc, parseLit_append]
  simp only [Option.some_bind]
  rw [List.append_assoc]
  exact parseStrBody_round s rest

theorem parseNatField_round (lit : ByteStr) (n : Nat) (rest : ByteStr)
    (hrest : ∀ b, rest.head? = some b → isDigitByte b = false) :
    parseNatField lit (emitNatField lit n ++ rest) = some (n, rest) := by
  unfold parseNatField emitNatField
  rw [List.append_assoc, parseLit_append]
  simp only [Option.some_bind]
  exact parseNatBytes_round n rest hrest

theorem head?_append_of_some {l l' : ByteStr} {b : Nat}
    (h : l.head? = some b) : (l ++ l').head? = some b := by
  cases l with
  | nil => simp at h
  | cons x xs => simpa using h

theorem noHeadDigit_of (l : ByteStr) (c : Nat) (h : l.head? = some c)
    (hc : isDigitByte c = false) :
    ∀ b, l.head? = some b → isDigitByte b = false := by
  intro b hb
  rw [h] at hb
  injection hb with e
  rwa [← e]

theorem natSep_emitNat {lit2 : ByteStr} (h2 : lit2.head? = some 44)
    (x : Nat) (R : ByteStr) :
    ∀ b, (emitNatField lit2 x ++ R).head? = some b → isDigitByte b = false :=
  noHeadDigit_of _ 44 (head?_append_of_some (head?_append_of_some h2)) rfl

theorem natSep_emitStr {lit2 : ByteStr} (h2 : lit2.head? = some 44)
    (v : ByteStr) (R : ByteStr) :
    ∀ b, (emitStrField lit2 v ++ R).head? = some b → isDigitByte b = false :=
  noHeadDigit_of _ 44 (head?_append_of_some (head?_append_of_some h2)) rfl

theorem natSep_close :
    ∀ b, (jClose : ByteStr).head? = some b → isDigitByte b = false :=
  noHeadDigit_of _ 125 rfl rfl

theorem optBind_some {α β : Type} (a : α) (f : α → Option β) :
    ((some a : Option α) >>= f) = f a := rfl

theorem jKeyInfoVersion_head : jKeyInfoVersion.head? = some 44 := rfl

theorem jKeyServers_head : jKeyServers.head? = some 44 := rfl

theorem jKeyDrives_head : jKeyDrives.head? = some 44 := rfl

theorem jKeyTotalSpace_head : jKeyTotalSpace.head? = some 44 := rfl

theorem jKeyUsedSpace_head : jKeyUsedSpace.head? = some 44 := rfl

theorem jKeyBuckets_head : jKeyBuckets.head? = some 44 := rfl

theorem jKeyObjects_head : jKeyObjects.head? = some 44 := rfl

theorem parseRegInfoBytes_round (r : ClusterRegistrationInfo) :
    parseRegInfoBytes (jsonOfRegInfo r) = some r := by
  unfold parseRegInfoBytes jsonOfRegInfo
  rw [parseStrField_round]
  simp only [optBind_some, Option.some_bind]
  rw [parseStrField_round]
  simp only [optBind_some, Option.some_bind]
  rw [parseNatField_round _ _ _ (natSep_emitStr jKeyInfoVersion_head _ _)]
  simp only [optBind_some, Option.some_bind]
  rw [parseStrField_round]
  simp only [optBind_some, Option.some_bind]
  rw [parseNatField_round _ _ _ (natSep_emitNat jKeyServers_head _ _)]
  simp only [optBind_some, Option.some_bind]
  rw [parseNatField_round _ _ _ (natSep_emitNat jKeyDrives_head _ _)]
  simp only [optBind_some, Option.some_bind]
  rw [parseNatField_round _ _ _ (natSep_emitNat jKeyTotalSpace_head _ _)]
  simp only [optBind_some, Option.some_bind]
  rw [parseNatField_round _ _ _ (natSep_emitNat jKeyUsedSpace_head _ _)]
  simp only [optBind_some, Option.some_bind]
  rw [parseNatField_round _ _ _ (natSep_emitNat jKeyBuckets_head _ _)]
  simp only [optBind_some, Option.some_bind]
  rw [parseNatField_round _ _ _ (natSep_emitNat jKeyObjects_head _ _)]
  simp only [optBind_some, Option.some_bind]
  rw [parseNatField_round _ _ _ natSep_close]
  simp only [optBind_some, Option.some_bind]
  rw [parseLit_self]
  simp only [optBind_some, Option.some_bind]
  rfl

theorem mem_lt_append {l1 l2 : ByteStr} (h1 : ∀ b ∈ l1, b < 256)
    (h2 : ∀ b ∈ l2, b < 256) : ∀ b ∈ l1 ++ l2, b < 256 := by
  intro b hb
  rcases List.mem_append.mp hb with h | h
  · exact h1 b h
  · exact h2 b h

theorem escByte_lt {b : Nat} (hb : b < 256) : ∀ x ∈ escByte b, x < 256 := by
  intro x hx
  unfold escByte at hx
  split_ifs at hx <;> simp at hx <;> omega

theorem escBytes_lt {s : ByteStr} (hs : ∀ b ∈ s, b < 256) :
    ∀ x ∈ escBytes s, x < 256 := by
  induction s with
  | nil => simp [escBytes]
  | cons b t ih =>
    rw [escBytes_cons]
    exact mem_lt_append (escByte_lt (hs b (by simp)))
      (ih (fun y hy => hs y (by simp [hy])))

theorem digitBytes_lt (n : Nat) : ∀ b ∈ digitBytes n, b < 256 := by
  intro b hb
  have hd := digitBytes_digits n b hb
  simp only [isDigitByte, decide_eq_true_eq] at hd
  omega

theorem emitStrField_lt {lit s : ByteStr} (hl : ∀ b ∈ lit, b < 256)
    (hs : ∀ b ∈ s, b < 256) : ∀ b ∈ emitStrField lit s, b < 256 := by
  unfold emitStrField
  exact mem_lt_append hl (mem_lt_append (escBytes_lt hs) (by decide))

theorem emitNatField_lt {lit : ByteStr} (n : Nat) (hl : ∀ b ∈ lit, b < 256) :
    ∀ b ∈ emitNatField lit n, b < 256 := by
  unfold emitNatField
  exact mem_lt_append hl (digitBytes_lt n)

theorem jLits_lt :
    (∀ b ∈ jKeyDeploymentID, b < 256) ∧ (∀ b ∈ jKeyClusterName, b < 256) ∧
    (∀ b ∈ jKeyUsedCapacity, b < 256) ∧ (∀ b ∈ jKeyInfoVersion, b < 256) ∧
    (∀ b ∈ jKeyPools, b < 256) ∧ (∀ b ∈ jKeyServers, b < 256) ∧
    (∀ b ∈ jKeyDrives, b < 256) ∧ (∀ b ∈ jKeyTotalSpace, b < 256) ∧
    (∀ b ∈ jKeyUsedSpace, b < 256) ∧ (∀ b ∈ jKeyBuckets, b < 256) ∧
    (∀ b ∈ jKeyObjects, b < 256) ∧ (∀ b ∈ jClose, b < 256) := by
  decide

theorem jsonOfRegInfo_lt (r : ClusterRegistrationInfo) (h : RegInfoWF r) :
    ∀ b ∈ jsonOfRegInfo r, b < 256 := by
  obtain ⟨h1, h2, h3⟩ := h
  obtain ⟨l1, l2, l3, l4, l5, l6, l7, l8, l9, l10, l11, l12⟩ := jLits_lt
  unfold jsonOfRegInfo
  exact mem_lt_append (emitStrField_lt l1 h1)
    (mem_lt_append (emitStrField_lt l2 h2)
    (mem_lt_append (emitNatField_lt _ l3)
    (mem_lt_append (emitStrField_lt l4 h3)
    (mem_lt_append (emitNatField_lt _ l5)
    (mem_lt_append (emitNatField_lt _ l6)
    (mem_lt_append (emitNatField_lt _ l7)
    (mem_lt_append (emitNatField_lt _ l8)
    (mem_lt_append (emitNatField_lt _ l9)
    (mem_lt_append (emitNatField_lt _ l10)
    (mem_lt_append (emitNatField_lt _ l11) l12))))))))))

/-- Claim C9: registration-token generation is deterministic, and decoding
a generated token — base64-decoding it, then deserializing the payload —
reproduces the original `ClusterRegistrationInfo` field values exactly, for
every well-formed payload (string fields made of bytes). -/
theorem generateRegToken_roundtrip (r : ClusterRegistrationInfo)
    (h : RegInfoWF r) :
    decodeRegToken (generateRegToken r) = some r ∧
    (∀ r', r = r' → generateRegToken r = generateRegToken r') := by
  constructor
  · unfold decodeRegToken generateRegToken
    rw [base64Decode_encode _ (jsonOfRegInfo_lt r h)]
    simp only [Option.some_bind]
    exact parseRegInfoBytes_round r
  · intro r' he
    rw [he]

/-- Witness for C9: a concrete registration payload whose generated token
decodes back to itself. -/
theorem generateRegToken_roundtrip_witness :
    RegInfoWF (ClusterRegistrationInfo.mk [100, 45, 49] [99, 108] 1234
      (ClusterInfo.mk [118, 50] 3 4 16 1000000 999 7 120345)) ∧
    decodeRegToken (generateRegToken (ClusterRegistrationInfo.mk [100, 45, 49]
      [99, 108] 1234 (ClusterInfo.mk [118, 50] 3 4 16 1000000 999 7 120345))) =
      some (ClusterRegistrationInfo.mk [100, 45, 49] [99, 108] 1234
        (ClusterInfo.mk [118, 50] 3 4 16 1000000 999 7 120345)) :=
  ⟨by decide, (generateRegToken_roundtrip _ (by decide)).1⟩
